import Mathlib

/-
Verification of the authentication-method abstraction of rust-openstack
(`openstack::auth`). The surviving artifact in src/ is the rustdoc index
`src/openstack/auth/sidebar-items.js`, which only names the items
`AuthMethod`, `BoxedClone`, `NoAuth`, `PasswordAuth`, `Identity`,
`from_config` ("Create Identity authentication from the config file") and
`from_env` ("Create an authentication method from environment variables").
All executable logic is absent from src/, so every definition below that
carries behavior is modelled from the specification document of the
authentication-method abstraction and session-credential lifecycle.
-/

namespace OpenStackAuth

/-- Modelled from the spec: a `Token` is "a string/opaque value plus an
expiry timestamp and a set of endpoint-catalog entries". The expiry is
`Option Nat` so the sentinel token of `NoAuth` (which has no expiry) can be
represented; the catalog maps service names to endpoint URLs. -/
structure Token where
  value : String
  expiresAt : Option Nat
  catalog : List (String × String)
deriving Repr, DecidableEq

/-- Modelled from the spec: the "empty-token sentinel" of `NoAuth`, with
"an empty token and no endpoint catalog". -/
def emptyToken : Token :=
  { value := "", expiresAt := none, catalog := [] }

/-- A token with a recorded expiry timestamp is expired once the clock has
reached it; the sentinel (no expiry) never expires. -/
def Token.expired (now : Nat) (t : Token) : Bool :=
  match t.expiresAt with
  | none => false
  | some e => decide (e ≤ now)

/-- Modelled from the spec error taxonomy: `InvalidCredentials`,
`NetworkFailure`, `MalformedResponse`, `ConfigError`, `MissingEnv`. -/
inductive AuthError where
  | InvalidCredentials
  | NetworkFailure
  | MalformedResponse
  | ConfigError
  | MissingEnv
deriving Repr, DecidableEq

/-- Modelled from the spec: the `Identity` variant "holds one of several
configured sub-methods (password, pre-issued token, federated assertion)
selected at construction time". -/
inductive SubMethod where
  | password (username password project : String)
  | token (tok : String)
  | federated (assertion : String)
deriving Repr, DecidableEq

/-- Modelled from the spec: the closed set of `AuthMethod` variants named by
the rustdoc index: `NoAuth` (no credentials), `PasswordAuth` (username,
password and project scope), and `Identity` (general v3 factory wrapping a
sub-method). -/
inductive AuthMethod where
  | NoAuth
  | PasswordAuth (username password project : String)
  | Identity (sub : SubMethod)
deriving Repr, DecidableEq

def AuthMethod.isNoAuth : AuthMethod → Bool
  | .NoAuth => true
  | _ => false

/-- Modelled from the spec: the per-instance mutable state of an
`AuthMethod`: its (immutable) credential configuration and "zero or one
cached `Token`". -/
structure AuthState where
  method : AuthMethod
  cache : Option Token
deriving Repr, DecidableEq

/-- Modelled from the spec: the outcome the external transport collaborator
delivers for one identity exchange: either an HTTP response (status code and
a body that may or may not parse into a `Token`), or a transport/connection
failure (which also covers cancellation and timeout). -/
inductive ExchangeOutcome where
  | response (status : Nat) (body : Option Token)
  | transportFailure
deriving Repr, DecidableEq

/-- Modelled from the spec: mapping of one exchange outcome to a token or an
error: 401/403 yield `InvalidCredentials`, an unparsable body yields
`MalformedResponse`, a transport failure yields `NetworkFailure`. -/
def mapResponse : ExchangeOutcome → Except AuthError Token
  | .transportFailure => .error .NetworkFailure
  | .response status body =>
    if status = 401 ∨ status = 403 then .error .InvalidCredentials
    else
      match body with
      | some t => .ok t
      | none => .error .MalformedResponse

/-- Result of one `acquire_token` call: the value or error handed to the
caller, the instance state after the call, and the number of underlying
authentication exchanges the call performed (0 or 1; there is no internal
retry). -/
structure AcquireResult where
  result : Except AuthError Token
  state : AuthState
  exchanges : Nat

/-- A cache needs a refresh when it is empty or its token is expired. -/
def needsRefreshCache (now : Nat) (c : Option Token) : Bool :=
  match c with
  | none => true
  | some t => t.expired now

def needsRefresh (now : Nat) (s : AuthState) : Bool :=
  needsRefreshCache now s.cache

/-- One underlying authentication exchange: consults the transport outcome,
and on success writes the fresh token into the cache; on failure the state
is left untouched (no partial token is written). -/
def doExchange (resp : ExchangeOutcome) (s : AuthState) : AcquireResult :=
  match mapResponse resp with
  | .ok t => { result := .ok t, state := { s with cache := some t }, exchanges := 1 }
  | .error e => { result := .error e, state := s, exchanges := 1 }

/-- Modelled from the spec: `acquire_token` returns a currently valid token.
`NoAuth` transitions directly to the sentinel authenticated state, never
fails and never contacts any endpoint. The other variants return the cached
token when it is present and not expired, and otherwise perform the
underlying exchange and cache the result. -/
def acquire_token (now : Nat) (resp : ExchangeOutcome) (s : AuthState) : AcquireResult :=
  if s.method.isNoAuth then
    { result := .ok emptyToken, state := { s with cache := some emptyToken }, exchanges := 0 }
  else
    match s.cache with
    | some t => if t.expired now then doExchange resp s else { result := .ok t, state := s, exchanges := 0 }
    | none => doExchange resp s

/-- Modelled from the spec: `clone_boxed` (the `BoxedClone` capability)
produces a new instance with the same credential configuration and variant
identity and a freshly copied, unshared token cache (the embedding is
value-semantic, so the copy shares no mutable state with the original). -/
def clone_boxed (s : AuthState) : AuthState :=
  { method := s.method, cache := s.cache }

/-- Modelled from the spec: `default_endpoint` resolves a service endpoint
from the cached catalog, if available; returns nothing when the catalog has
not yet been fetched. -/
def default_endpoint (s : AuthState) (service : String) : Option String :=
  match s.cache with
  | none => none
  | some t => t.catalog.lookup service

/-- States where the `NoAuth` variant can actually be: it only ever caches
the sentinel token. Every state produced by the factories (empty cache) or
by `acquire_token` satisfies this. -/
def WellFormed (s : AuthState) : Prop :=
  s.method = .NoAuth → s.cache = none ∨ s.cache = some emptyToken

/-- The three authentication phases of the per-instance state machine. -/
inductive Phase where
  | unauthenticated
  | authenticated
  | expired
deriving Repr, DecidableEq

/-- The phase an instance is in at clock `now`: no cached token is
`Unauthenticated`, a valid cached token is `Authenticated`, an expired
cached token is `Expired`. -/
def phase (now : Nat) (s : AuthState) : Phase :=
  match s.cache with
  | none => .unauthenticated
  | some t => if t.expired now then .expired else .authenticated

/-- An exchange outcome whose token (if any) is not yet expired: the normal
behavior of an identity endpoint, which issues fresh tokens. -/
def FreshResponse (now : Nat) (resp : ExchangeOutcome) : Prop :=
  ∀ status t, resp = .response status (some t) → t.expired now = false

theorem isNoAuth_eq_false {m : AuthMethod} : m.isNoAuth = false ↔ m ≠ .NoAuth := by
  cases m <;> simp [AuthMethod.isNoAuth]

theorem wellFormed_acquire (now : Nat) (resp : ExchangeOutcome) (s : AuthState)
    (h : WellFormed s) : WellFormed (acquire_token now resp s).state := by
  rcases s with ⟨m, c⟩
  cases m <;> simp [acquire_token, AuthMethod.isNoAuth, WellFormed] at h ⊢
  all_goals {
    cases c with
    | none =>
      simp [doExchange]
      cases h2 : mapResponse resp <;> simp [WellFormed]
    | some t =>
      by_cases he : t.expired now = true <;> simp [he, WellFormed]
      cases h2 : mapResponse resp <;> simp [doExchange, h2, WellFormed]
  }

/-- Modelled from the spec: the parsed settings handed to `from_config`
(field set per §4.5 and the environment-variable list: identity endpoint,
username, password, project scope, or a pre-issued token), each optional
because the file may omit it. -/
structure Config where
  auth_url : Option String
  username : Option String
  password : Option String
  project_name : Option String
  token : Option String
deriving Repr, DecidableEq

/-- Modelled from the spec: `from_config` is absent from src/ (only its
rustdoc line "Create `Identity` authentication from the config file"
survives). It selects the matching variant from the parsed settings —
always the `Identity` factory variant, with the sub-method chosen by the
fields — and fails with `ConfigError` when required fields for the selected
variant are missing (no endpoint, no credential at all, or a password
without username or project scope) or contradictory (both a password and a
pre-issued token). -/
def from_config (c : Config) : Except AuthError AuthMethod :=
  match c.auth_url with
  | none => .error .ConfigError
  | some _ =>
    match c.token, c.password with
    | some _, some _ => .error .ConfigError
    | some tk, none => .ok (.Identity (.token tk))
    | none, some pw =>
      match c.username, c.project_name with
      | some u, some pr => .ok (.Identity (.password u pw pr))
      | _, _ => .error .ConfigError
    | none, none => .error .ConfigError

/-- Modelled from the spec: the recognized environment variables read by
`from_env` (OS_USERNAME, OS_PASSWORD, OS_AUTH_URL, OS_PROJECT_NAME, plus a
selector for the unauthenticated variant), each possibly absent. -/
structure Env where
  os_auth_type : Option String
  os_auth_url : Option String
  os_username : Option String
  os_password : Option String
  os_project_name : Option String
deriving Repr, DecidableEq

/-- Modelled from the spec: `from_env` constructs the variant implied by the
environment — `NoAuth` when the auth-type selector says so (no other
variable required), otherwise password authentication, requiring
OS_AUTH_URL, OS_USERNAME, OS_PASSWORD and OS_PROJECT_NAME and failing with
`MissingEnv` when any required variable is absent. -/
def from_env (e : Env) : Except AuthError AuthMethod :=
  if e.os_auth_type = some "noauth" then .ok .NoAuth
  else
    match e.os_auth_url, e.os_username, e.os_password, e.os_project_name with
    | some _, some u, some pw, some pr => .ok (.PasswordAuth u pw pr)
    | _, _, _, _ => .error .MissingEnv

/-- The required fields for the variant selected by a config are missing or
contradictory: no identity endpoint, no credential at all, both a password
and a pre-issued token, or a password without username or project scope. -/
def configMissingOrContradictory (c : Config) : Prop :=
  c.auth_url = none
  ∨ (c.token ≠ none ∧ c.password ≠ none)
  ∨ (c.token = none ∧ c.password = none)
  ∨ (c.password ≠ none ∧ (c.username = none ∨ c.project_name = none))

/-- A required environment variable for the variant implied by the
environment is absent. -/
def envMissing (e : Env) : Prop :=
  e.os_auth_type ≠ some "noauth"
  ∧ (e.os_auth_url = none ∨ e.os_username = none ∨ e.os_password = none
      ∨ e.os_project_name = none)

/-- The dynamic variant identity of an `AuthMethod` instance. -/
inductive VariantTag where
  | noAuthTag
  | passwordTag
  | identityTag
deriving Repr, DecidableEq

def variantOf : AuthMethod → VariantTag
  | .NoAuth => .noAuthTag
  | .PasswordAuth _ _ _ => .passwordTag
  | .Identity _ => .identityTag

/-- The variant a config file implies: per the surviving rustdoc line,
`from_config` creates `Identity` authentication from the config file. -/
def impliedConfigVariant (_ : Config) : VariantTag :=
  .identityTag

/-- The variant an environment implies: `NoAuth` when the auth-type selector
says so, otherwise password authentication. -/
def impliedEnvVariant (e : Env) : VariantTag :=
  if e.os_auth_type = some "noauth" then .noAuthTag else .passwordTag

/-- Modelled from the spec (§5): the shared state of one `AuthMethod`
instance being used by several concurrent callers: the token cache, whether
an authentication exchange is currently in flight (the serialization lock),
how many exchanges have been started so far, how many callers still wait
for a token, and the tokens already handed to completed callers. -/
structure RefreshSystem where
  cache : Option Token
  inFlight : Bool
  started : Nat
  pending : Nat
  served : List Token
deriving Repr, DecidableEq

/-- The initial shared state: `n` concurrent callers, empty cache, no
exchange in flight, no exchange started yet. -/
def initSystem (n : Nat) : RefreshSystem :=
  { cache := none, inFlight := false, started := 0, pending := n, served := [] }

/-- Modelled from the spec (§5): the interleaved small steps of concurrent
`acquire_token` calls on one instance, with the exchange yielding
`freshTok`. A caller may start an exchange only when a refresh is needed
and no exchange is in flight (callers arriving during a refresh block); a
completed exchange writes the token into the cache; a caller holding a
valid cached token is served it and completes. -/
inductive CStep (now : Nat) (freshTok : Token) : RefreshSystem → RefreshSystem → Prop where
  | begin (s : RefreshSystem) (hp : 0 < s.pending)
      (hn : needsRefreshCache now s.cache = true) (hf : s.inFlight = false) :
      CStep now freshTok s { s with inFlight := true, started := s.started + 1 }
  | finish (s : RefreshSystem) (hf : s.inFlight = true) :
      CStep now freshTok s { s with inFlight := false, cache := some freshTok }
  | serve (s : RefreshSystem) (t : Token) (hp : 0 < s.pending)
      (hc : s.cache = some t) (hv : t.expired now = false) :
      CStep now freshTok s { s with pending := s.pending - 1, served := t :: s.served }

/-- Reachability by any interleaving of the concurrent steps. -/
inductive Reach (now : Nat) (freshTok : Token) : RefreshSystem → RefreshSystem → Prop where
  | refl (s : RefreshSystem) : Reach now freshTok s s
  | step {a b c : RefreshSystem} : Reach now freshTok a b → CStep now freshTok b c →
      Reach now freshTok a c

/-- How many authentication exchanges are in flight at once (the lock is a
single Boolean, so 0 or 1). -/
def inFlightCount (s : RefreshSystem) : Nat :=
  if s.inFlight then 1 else 0

/-- Invariant of the concurrent-refresh system when the exchange yields a
token that is valid at `now`: at most one exchange is ever started, the
cache only ever holds that fresh token, and every served caller received
it. -/
def RefreshInv (freshTok : Token) (s : RefreshSystem) : Prop :=
  s.started ≤ 1
  ∧ (s.inFlight = true → s.cache = none ∧ s.started = 1)
  ∧ (s.inFlight = false → s.cache = none → s.started = 0)
  ∧ (∀ t, s.cache = some t → t = freshTok ∧ s.started = 1)
  ∧ (∀ t ∈ s.served, t = freshTok)
  ∧ (s.served ≠ [] → s.started = 1)

theorem refreshInv_init (freshTok : Token) (n : Nat) :
    RefreshInv freshTok (initSystem n) := by
  simp [RefreshInv, initSystem]

theorem refreshInv_step {now : Nat} {freshTok : Token} {a b : RefreshSystem}
    (hfresh : freshTok.expired now = false)
    (hinv : RefreshInv freshTok a) (hstep : CStep now freshTok a b) :
    RefreshInv freshTok b := by
  obtain ⟨h1, h2, h3, h4, h5, h6⟩ := hinv
  cases hstep with
  | begin hp hn hf =>
    have hcache : a.cache = none := by
      cases hc : a.cache with
      | none => rfl
      | some t =>
        obtain ⟨ht, _⟩ := h4 t hc
        rw [hc, ht] at hn
        simp [needsRefreshCache, hfresh] at hn
    have hz : a.started = 0 := h3 hf hcache
    refine ⟨?_, ?_, ?_, ?_, ?_, ?_⟩ <;> simp [hz, hcache]
    exact h5
  | finish hf =>
    obtain ⟨hc, hs⟩ := h2 hf
    refine ⟨?_, ?_, ?_, ?_, ?_, ?_⟩ <;> simp [hs]
    exact h5
  | serve t hp hc hv =>
    obtain ⟨ht, hs⟩ := h4 t hc
    refine ⟨h1, h2, h3, h4, ?_, ?_⟩
    · intro u hu
      rcases List.mem_cons.mp hu with h | h
      · rw [h, ht]
      · exact h5 u h
    · intro _
      exact hs

theorem isNoAuth_eq_true {m : AuthMethod} : m.isNoAuth = true ↔ m = .NoAuth := by
  cases m <;> simp [AuthMethod.isNoAuth]

theorem acquire_noauth (now : Nat) (resp : ExchangeOutcome) (s : AuthState)
    (h : s.method.isNoAuth = true) :
    acquire_token now resp s =
      { result := .ok emptyToken, state := { s with cache := some emptyToken }, exchanges := 0 } := by
  simp [acquire_token, h]

theorem acquire_refreshes (now : Nat) (resp : ExchangeOutcome) (s : AuthState)
    (h : s.method.isNoAuth = false) (hn : needsRefresh now s = true) :
    acquire_token now resp s = doExchange resp s := by
  rcases s with ⟨m, c⟩
  cases c with
  | none => simp [acquire_token, h]
  | some t =>
    simp only [needsRefresh, needsRefreshCache] at hn
    simp [acquire_token, h, hn]

theorem acquire_cached (now : Nat) (resp : ExchangeOutcome) (s : AuthState) (t : Token)
    (h : s.method.isNoAuth = false) (hc : s.cache = some t) (hv : t.expired now = false) :
    acquire_token now resp s = { result := .ok t, state := s, exchanges := 0 } := by
  rcases s with ⟨m, c⟩
  simp only [AuthState.cache] at hc
  subst hc
  simp [acquire_token, h, hv]

theorem doExchange_ok (resp : ExchangeOutcome) (s : AuthState) (t : Token)
    (h : mapResponse resp = .ok t) :
    doExchange resp s =
      { result := .ok t, state := { s with cache := some t }, exchanges := 1 } := by
  simp [doExchange, h]

theorem doExchange_error (resp : ExchangeOutcome) (s : AuthState) (e : AuthError)
    (h : mapResponse resp = .error e) :
    doExchange resp s = { result := .error e, state := s, exchanges := 1 } := by
  simp [doExchange, h]

theorem doExchange_exchanges (resp : ExchangeOutcome) (s : AuthState) :
    (doExchange resp s).exchanges = 1 := by
  cases h : mapResponse resp <;> simp [doExchange, h]

theorem mapResponse_ok {resp : ExchangeOutcome} {t : Token}
    (h : mapResponse resp = .ok t) :
    ∃ status, resp = .response status (some t) := by
  cases resp with
  | transportFailure => simp [mapResponse] at h
  | response status body =>
    by_cases hs : status = 401 ∨ status = 403
    · simp [mapResponse, hs] at h
    · cases body with
      | none => simp [mapResponse, hs] at h
      | some u =>
        simp [mapResponse, hs] at h
        exact ⟨status, by rw [h]⟩

/-- The scenario start state of the spec: `PasswordAuth{user:"a", pass:"b",
project:"p"}` with an empty cache. -/
def scenarioStart : AuthState :=
  { method := .PasswordAuth "a" "b" "p", cache := none }

/-- The first mock token of the scenario: "T1", expiring in 1 hour. -/
def tokenT1 : Token := { value := "T1", expiresAt := some 3600, catalog := [] }

/-- The second mock token of the scenario: "T2". -/
def tokenT2 : Token := { value := "T2", expiresAt := some 7200, catalog := [] }

/-- First `acquire_token` call of the scenario, at clock 0. -/
def scenarioFirst : AcquireResult :=
  acquire_token 0 (.response 201 (some tokenT1)) scenarioStart

/-- Second `acquire_token` call of the scenario, after the clock advanced
past the expiry of "T1". -/
def scenarioSecond : AcquireResult :=
  acquire_token 3601 (.response 201 (some tokenT2)) scenarioFirst.state

/-- C1: for every `AuthMethod` instance, a cached token is handed out by
`acquire_token` (no exchange performed) only if it is not expired; when the
cache is empty or expired a refresh exchange is performed; and in the
spec scenario the first call returns "T1" via one exchange and, after the
clock passes the expiry, the next call performs a second exchange and
returns "T2". -/
theorem acquire_cached_token_valid (now : Nat) (resp : ExchangeOutcome)
    (s : AuthState) (t : Token) :
    ((acquire_token now resp s).exchanges = 0 →
      (acquire_token now resp s).result = .ok t → s.cache = some t →
      t.expired now = false)
    ∧ (s.method ≠ .NoAuth → needsRefresh now s = true →
      (acquire_token now resp s).exchanges = 1)
    ∧ scenarioFirst.result = .ok tokenT1 ∧ scenarioFirst.exchanges = 1
    ∧ scenarioSecond.result = .ok tokenT2 ∧ scenarioSecond.exchanges = 1 := by
  refine ⟨?_, ?_, rfl, rfl, rfl, rfl⟩
  · intro h0 hok hc
    by_cases hm : s.method.isNoAuth = true
    · rw [acquire_noauth now resp s hm] at hok
      simp only [AcquireResult.result, Except.ok.injEq] at hok
      subst hok
      rfl
    · have hm2 : s.method.isNoAuth = false := by simpa using hm
      by_cases hn : needsRefresh now s = true
      · rw [acquire_refreshes now resp s hm2 hn, doExchange_exchanges] at h0
        exact absurd h0 one_ne_zero
      · have hn2 : needsRefresh now s = false := by simpa using hn
        cases hc0 : s.cache with
        | none => simp [needsRefresh, needsRefreshCache, hc0] at hn2
        | some t0 =>
          rw [hc0] at hc
          injection hc with ht0
          subst ht0
          simpa [needsRefresh, needsRefreshCache, hc0] using hn2
  · intro hne hn
    have hm2 : s.method.isNoAuth = false := isNoAuth_eq_false.mpr hne
    rw [acquire_refreshes now resp s hm2 hn, doExchange_exchanges]

/-- A concrete cached token used by several witnesses. -/
def wTok : Token := { value := "W", expiresAt := some 10, catalog := [] }

/-- A concrete password-authentication state holding a valid cached token. -/
def wState : AuthState := { method := .PasswordAuth "u" "v" "w", cache := some wTok }

theorem acquire_cached_token_valid_witness :
    wTok.expired 5 = false
    ∧ (acquire_token 5 .transportFailure
        { method := .PasswordAuth "u" "v" "w", cache := none }).exchanges = 1 :=
  ⟨(acquire_cached_token_valid 5 .transportFailure wState wTok).1 rfl rfl rfl,
   (acquire_cached_token_valid 5 .transportFailure
      { method := .PasswordAuth "u" "v" "w", cache := none } wTok).2.1
      (by simp) rfl⟩

/-- C2: on a well-formed state whose cached token is not expired, every
variant of `acquire_token` returns exactly the cached token, performs no
underlying exchange, and leaves the state unchanged — so a second call with
no intervening expiry returns the identical token, again without any
exchange. -/
theorem acquire_idempotent_on_valid_cache (n1 n2 : Nat) (r1 r2 : ExchangeOutcome)
    (s : AuthState) (t : Token) (hwf : WellFormed s) (hc : s.cache = some t)
    (h1 : t.expired n1 = false) (h2 : t.expired n2 = false) :
    (acquire_token n1 r1 s).result = .ok t
    ∧ (acquire_token n1 r1 s).exchanges = 0
    ∧ (acquire_token n1 r1 s).state = s
    ∧ (acquire_token n2 r2 (acquire_token n1 r1 s).state).result = .ok t
    ∧ (acquire_token n2 r2 (acquire_token n1 r1 s).state).exchanges = 0 := by
  by_cases hm : s.method.isNoAuth = true
  · have hno : s.method = .NoAuth := isNoAuth_eq_true.mp hm
    have hte : t = emptyToken := by
      rcases hwf hno with h | h
      · rw [hc] at h; cases h
      · rw [hc] at h; injection h
    have hstate : { s with cache := some emptyToken } = s := by
      rcases s with ⟨m, c⟩
      simp only [AuthState.cache] at hc
      simp [hc, hte]
    rw [acquire_noauth n1 r1 s hm]
    simp only [AcquireResult.result, AcquireResult.exchanges, AcquireResult.state, hstate]
    rw [acquire_noauth n2 r2 s hm]
    simp [hte]
  · have hm2 : s.method.isNoAuth = false := by simpa using hm
    rw [acquire_cached n1 r1 s t hm2 hc h1]
    simp only [AcquireResult.result, AcquireResult.exchanges, AcquireResult.state]
    rw [acquire_cached n2 r2 s t hm2 hc h2]
    simp

theorem acquire_idempotent_on_valid_cache_witness :
    (acquire_token 5 .transportFailure wState).result = .ok wTok
    ∧ (acquire_token 5 .transportFailure wState).exchanges = 0
    ∧ (acquire_token 5 .transportFailure wState).state = wState
    ∧ (acquire_token 7 .transportFailure
        (acquire_token 5 .transportFailure wState).state).result = .ok wTok
    ∧ (acquire_token 7 .transportFailure
        (acquire_token 5 .transportFailure wState).state).exchanges = 0 :=
  acquire_idempotent_on_valid_cache 5 7 .transportFailure .transportFailure
    wState wTok (by simp [WellFormed, wState]) rfl rfl rfl

/-- C3: for the `NoAuth` variant, `acquire_token` never fails: in every
state it returns the empty-token sentinel (which carries no endpoint
catalog) and performs zero underlying exchanges, i.e. it never contacts any
endpoint. -/
theorem noauth_acquire_never_fails (now : Nat) (resp : ExchangeOutcome)
    (s : AuthState) (h : s.method = .NoAuth) :
    (acquire_token now resp s).result = .ok emptyToken
    ∧ (acquire_token now resp s).exchanges = 0
    ∧ emptyToken.value = "" ∧ emptyToken.catalog = []
    ∧ default_endpoint (acquire_token now resp s).state "compute" = none := by
  have hm : s.method.isNoAuth = true := isNoAuth_eq_true.mpr h
  rw [acquire_noauth now resp s hm]
  refine ⟨rfl, rfl, rfl, rfl, ?_⟩
  simp [default_endpoint, emptyToken, List.lookup]

theorem noauth_acquire_never_fails_witness :
    (acquire_token 3 .transportFailure { method := .NoAuth, cache := none }).result
        = .ok emptyToken
    ∧ (acquire_token 3 .transportFailure { method := .NoAuth, cache := none }).exchanges = 0
    ∧ emptyToken.value = "" ∧ emptyToken.catalog = []
    ∧ default_endpoint
        (acquire_token 3 .transportFailure { method := .NoAuth, cache := none }).state
        "compute" = none :=
  noauth_acquire_never_fails 3 .transportFailure { method := .NoAuth, cache := none } rfl

/-- C4: for the non-`NoAuth` variants, when a refresh is needed the single
exchange outcome is mapped to errors exactly as specified: a transport or
connection failure yields `NetworkFailure`, a 401 or 403 response yields
`InvalidCredentials`, any other response whose body does not parse into a
token yields `MalformedResponse`; in each case exactly one exchange is
performed (no internal retry) and the error is surfaced unmodified. -/
theorem acquire_error_mapping (now : Nat) (s : AuthState) (status : Nat)
    (body : Option Token) (hm : s.method ≠ .NoAuth) (hn : needsRefresh now s = true) :
    ((acquire_token now .transportFailure s).result = .error .NetworkFailure
      ∧ (acquire_token now .transportFailure s).exchanges = 1)
    ∧ (status = 401 ∨ status = 403 →
      (acquire_token now (.response status body) s).result = .error .InvalidCredentials
      ∧ (acquire_token now (.response status body) s).exchanges = 1)
    ∧ (¬(status = 401 ∨ status = 403) →
      (acquire_token now (.response status none) s).result = .error .MalformedResponse
      ∧ (acquire_token now (.response status none) s).exchanges = 1) := by
  have hm2 : s.method.isNoAuth = false := isNoAuth_eq_false.mpr hm
  refine ⟨?_, ?_, ?_⟩
  · rw [acquire_refreshes now .transportFailure s hm2 hn,
      doExchange_error .transportFailure s .NetworkFailure rfl]
    exact ⟨rfl, rfl⟩
  · intro hs
    rw [acquire_refreshes now (.response status body) s hm2 hn,
      doExchange_error (.response status body) s .InvalidCredentials
        (by simp [mapResponse, hs])]
    exact ⟨rfl, rfl⟩
  · intro hs
    rw [acquire_refreshes now (.response status none) s hm2 hn,
      doExchange_error (.response status none) s .MalformedResponse
        (by simp [mapResponse, hs])]
    exact ⟨rfl, rfl⟩

theorem acquire_error_mapping_witness :
    ((acquire_token 5 .transportFailure
        { method := .PasswordAuth "u" "v" "w", cache := none }).result
        = .error .NetworkFailure
      ∧ (acquire_token 5 .transportFailure
        { method := .PasswordAuth "u" "v" "w", cache := none }).exchanges = 1)
    ∧ ((acquire_token 5 (.response 401 none)
        { method := .PasswordAuth "u" "v" "w", cache := none }).result
        = .error .InvalidCredentials
      ∧ (acquire_token 5 (.response 401 none)
        { method := .PasswordAuth "u" "v" "w", cache := none }).exchanges = 1)
    ∧ ((acquire_token 5 (.response 500 none)
        { method := .PasswordAuth "u" "v" "w", cache := none }).result
        = .error .MalformedResponse
      ∧ (acquire_token 5 (.response 500 none)
        { method := .PasswordAuth "u" "v" "w", cache := none }).exchanges = 1) := by
  refine ⟨?_, ?_, ?_⟩
  · exact (acquire_error_mapping 5
      { method := .PasswordAuth "u" "v" "w", cache := none } 401 none
      (by simp) rfl).1
  · exact (acquire_error_mapping 5
      { method := .PasswordAuth "u" "v" "w", cache := none } 401 none
      (by simp) rfl).2.1 (Or.inl rfl)
  · exact (acquire_error_mapping 5
      { method := .PasswordAuth "u" "v" "w", cache := none } 500 none
      (by simp) rfl).2.2 (by simp)

/-- C5: whenever `acquire_token` fails with any error, the instance state is
exactly what it was before the call — no partial token is written — and the
instance is not invalidated: a subsequent `acquire_token` on the resulting
state that receives a well-formed fresh response succeeds with that fresh
token. -/
theorem acquire_error_atomicity (now : Nat) (resp : ExchangeOutcome)
    (s : AuthState) (e : AuthError)
    (he : (acquire_token now resp s).result = .error e) :
    (acquire_token now resp s).state = s
    ∧ ∀ t, t.expired now = false →
      (acquire_token now (.response 200 (some t))
        (acquire_token now resp s).state).result = .ok t := by
  by_cases hm : s.method.isNoAuth = true
  · rw [acquire_noauth now resp s hm] at he
    simp at he
  have hm2 : s.method.isNoAuth = false := by simpa using hm
  by_cases hn : needsRefresh now s = true
  · have hstate : (acquire_token now resp s).state = s := by
      rw [acquire_refreshes now resp s hm2 hn] at he ⊢
      cases hmr : mapResponse resp with
      | ok t => rw [doExchange_ok resp s t hmr] at he; simp at he
      | error e0 => rw [doExchange_error resp s e0 hmr]
    refine ⟨hstate, ?_⟩
    intro t ht
    rw [hstate, acquire_refreshes now (.response 200 (some t)) s hm2 hn,
      doExchange_ok (.response 200 (some t)) s t rfl]
  · have hn2 : needsRefresh now s = false := by simpa using hn
    cases hc : s.cache with
    | none => simp [needsRefresh, needsRefreshCache, hc] at hn2
    | some t0 =>
      have hv : t0.expired now = false := by
        simpa [needsRefresh, needsRefreshCache, hc] using hn2
      rw [acquire_cached now resp s t0 hm2 hc hv] at he
      simp at he

theorem acquire_error_atomicity_witness :
    (acquire_token 5 .transportFailure
      { method := .PasswordAuth "u" "v" "w", cache := none }).state
      = { method := .PasswordAuth "u" "v" "w", cache := none }
    ∧ (acquire_token 5 (.response 200 (some wTok))
        (acquire_token 5 .transportFailure
          { method := .PasswordAuth "u" "v" "w", cache := none }).state).result
      = .ok wTok := by
  obtain ⟨h1, h2⟩ := acquire_error_atomicity 5 .transportFailure
    { method := .PasswordAuth "u" "v" "w", cache := none } .NetworkFailure rfl
  exact ⟨h1, h2 wTok rfl⟩

/-- An original instance together with its clone, as two independent slots
of a small world (the embedding is value-semantic, so the slots share no
mutable cache). -/
def cloneWorld (s : AuthState) : AuthState × AuthState :=
  (s, clone_boxed s)

/-- Refresh only the clone slot of a world. -/
def refreshCloneSlot (now : Nat) (resp : ExchangeOutcome)
    (w : AuthState × AuthState) : AuthState × AuthState :=
  (w.1, (acquire_token now resp w.2).state)

/-- Refresh only the original slot of a world. -/
def refreshOriginalSlot (now : Nat) (resp : ExchangeOutcome)
    (w : AuthState × AuthState) : AuthState × AuthState :=
  ((acquire_token now resp w.1).state, w.2)

/-- C6: `clone_boxed` preserves the credential configuration and the dynamic
variant identity of the original and copies the token cache by value, and
the two caches are independent: refreshing the clone leaves the original
slot exactly as it was, and refreshing the original leaves the clone slot
exactly the freshly copied clone. -/
theorem clone_boxed_independent (now : Nat) (resp : ExchangeOutcome) (s : AuthState) :
    (clone_boxed s).method = s.method
    ∧ variantOf (clone_boxed s).method = variantOf s.method
    ∧ (clone_boxed s).cache = s.cache
    ∧ (refreshCloneSlot now resp (cloneWorld s)).1 = s
    ∧ (refreshOriginalSlot now resp (cloneWorld s)).2 = clone_boxed s :=
  ⟨rfl, rfl, rfl, rfl, rfl⟩

/-- C7: the per-instance state machine: at any fixed clock, an
`acquire_token` call that receives a fresh (unexpired) response either
leaves the authentication phase unchanged or moves it from `Unauthenticated`
or `Expired` to `Authenticated` — these are the only transitions; the other
operations do not transition the machine: `clone_boxed` yields an instance
in the same phase and leaves the original untouched, and the phases are
exactly characterized by the cache. -/
theorem auth_state_machine (now : Nat) (resp : ExchangeOutcome) (s : AuthState)
    (hfresh : FreshResponse now resp) :
    (phase now (acquire_token now resp s).state = phase now s
      ∨ ((phase now s = .unauthenticated ∨ phase now s = .expired)
        ∧ phase now (acquire_token now resp s).state = .authenticated))
    ∧ phase now (clone_boxed s) = phase now s
    ∧ (phase now s = .unauthenticated ↔ s.cache = none)
    ∧ (phase now s = .authenticated ↔ ∃ t, s.cache = some t ∧ t.expired now = false)
    ∧ (phase now s = .expired ↔ ∃ t, s.cache = some t ∧ t.expired now = true) := by
  refine ⟨?_, rfl, ?_, ?_, ?_⟩
  · by_cases hm : s.method.isNoAuth = true
    · rw [acquire_noauth now resp s hm]
      have hpost : phase now { s with cache := some emptyToken } = .authenticated := by
        simp [phase, Token.expired, emptyToken]
      cases hc : s.cache with
      | none => exact Or.inr ⟨Or.inl (by simp [phase, hc]), hpost⟩
      | some t =>
        by_cases hv : t.expired now = true
        · exact Or.inr ⟨Or.inr (by simp [phase, hc, hv]), hpost⟩
        · have hv2 : t.expired now = false := by simpa using hv
          left
          rw [hpost]
          simp [phase, hc, hv2]
    · have hm2 : s.method.isNoAuth = false := by simpa using hm
      by_cases hn : needsRefresh now s = true
      · rw [acquire_refreshes now resp s hm2 hn]
        cases hmr : mapResponse resp with
        | error e => rw [doExchange_error resp s e hmr]; exact Or.inl rfl
        | ok t =>
          rw [doExchange_ok resp s t hmr]
          obtain ⟨status, hres⟩ := mapResponse_ok hmr
          have hv : t.expired now = false := hfresh status t hres
          have hpost : phase now { s with cache := some t } = .authenticated := by
            simp [phase, hv]
          cases hc : s.cache with
          | none => exact Or.inr ⟨Or.inl (by simp [phase, hc]), hpost⟩
          | some t0 =>
            have hv0 : t0.expired now = true := by
              simpa [needsRefresh, needsRefreshCache, hc] using hn
            exact Or.inr ⟨Or.inr (by simp [phase, hc, hv0]), hpost⟩
      · have hn2 : needsRefresh now s = false := by simpa using hn
        cases hc : s.cache with
        | none => simp [needsRefresh, needsRefreshCache, hc] at hn2
        | some t =>
          have hv : t.expired now = false := by
            simpa [needsRefresh, needsRefreshCache, hc] using hn2
          rw [acquire_cached now resp s t hm2 hc hv]
          exact Or.inl rfl
  · cases hc : s.cache with
    | none => simp [phase, hc]
    | some t => by_cases hv : t.expired now = true <;> simp [phase, hc, hv]
  · cases hc : s.cache with
    | none => simp [phase, hc]
    | some t => by_cases hv : t.expired now = true <;> simp [phase, hc, hv]
  · cases hc : s.cache with
    | none => simp [phase, hc]
    | some t => by_cases hv : t.expired now = true <;> simp [phase, hc, hv]

theorem auth_state_machine_witness :
    (phase 5 (acquire_token 5 (.response 200 (some wTok))
        { method := .PasswordAuth "u" "v" "w", cache := none }).state
      = phase 5 { method := .PasswordAuth "u" "v" "w", cache := none }
      ∨ ((phase 5 { method := .PasswordAuth "u" "v" "w", cache := none } = .unauthenticated
          ∨ phase 5 { method := .PasswordAuth "u" "v" "w", cache := none } = .expired)
        ∧ phase 5 (acquire_token 5 (.response 200 (some wTok))
            { method := .PasswordAuth "u" "v" "w", cache := none }).state = .authenticated))
    ∧ phase 5 (clone_boxed { method := .PasswordAuth "u" "v" "w", cache := none })
      = phase 5 { method := .PasswordAuth "u" "v" "w", cache := none }
    ∧ (phase 5 { method := .PasswordAuth "u" "v" "w", cache := none } = .unauthenticated
      ↔ ({ method := .PasswordAuth "u" "v" "w", cache := none } : AuthState).cache = none)
    ∧ (phase 5 { method := .PasswordAuth "u" "v" "w", cache := none } = .authenticated
      ↔ ∃ t, ({ method := .PasswordAuth "u" "v" "w", cache := none } : AuthState).cache = some t
          ∧ t.expired 5 = false)
    ∧ (phase 5 { method := .PasswordAuth "u" "v" "w", cache := none } = .expired
      ↔ ∃ t, ({ method := .PasswordAuth "u" "v" "w", cache := none } : AuthState).cache = some t
          ∧ t.expired 5 = true) :=
  auth_state_machine 5 (.response 200 (some wTok))
    { method := .PasswordAuth "u" "v" "w", cache := none }
    (by intro status t h; cases h; rfl)

/-- C8: `from_config` fails, and fails with `ConfigError`, exactly when the
required fields for the selected variant are missing or contradictory, and
`from_env` fails, with `MissingEnv`, exactly when a required environment
variable for the implied variant is absent; in every other case each
factory returns a constructed instance. -/
theorem factory_error_conditions (c : Config) (ev : Env) :
    ((from_config c = .error .ConfigError) ↔ configMissingOrContradictory c)
    ∧ ((∃ m, from_config c = .ok m) ↔ ¬configMissingOrContradictory c)
    ∧ ((from_env ev = .error .MissingEnv) ↔ envMissing ev)
    ∧ ((∃ m, from_env ev = .ok m) ↔ ¬envMissing ev) := by
  refine ⟨?_, ?_, ?_, ?_⟩
  · rcases c with ⟨au, un, pw, pr, tk⟩
    cases au <;> cases tk <;> cases pw <;> cases un <;> cases pr <;>
      simp [from_config, configMissingOrContradictory]
  · rcases c with ⟨au, un, pw, pr, tk⟩
    cases au <;> cases tk <;> cases pw <;> cases un <;> cases pr <;>
      simp [from_config, configMissingOrContradictory]
  · rcases ev with ⟨ty, url, un, pw, pr⟩
    by_cases hty : ty = some "noauth"
    · simp [from_env, envMissing, hty]
    · cases url <;> cases un <;> cases pw <;> cases pr <;>
        simp [from_env, envMissing, hty]
  · rcases ev with ⟨ty, url, un, pw, pr⟩
    by_cases hty : ty = some "noauth"
    · simp [from_env, envMissing, hty]
    · cases url <;> cases un <;> cases pw <;> cases pr <;>
        simp [from_env, envMissing, hty]

/-- C9: whenever a factory returns an instance, its dynamic variant is the
variant implied by the supplied settings: `Identity` for every config file
(per the surviving rustdoc line for `from_config`), and for `from_env` the
variant selected by the environment (NoAuth when the auth-type selector
says so, password authentication otherwise). -/
theorem factory_variant_selection :
    (∀ c m, from_config c = .ok m → variantOf m = impliedConfigVariant c)
    ∧ (∀ ev m, from_env ev = .ok m → variantOf m = impliedEnvVariant ev) := by
  constructor
  · intro c m h
    rcases c with ⟨au, un, pw, pr, tk⟩
    cases au <;> cases tk <;> cases pw <;> cases un <;> cases pr <;>
      simp [from_config] at h <;>
      simp [← h, variantOf, impliedConfigVariant]
  · intro ev m h
    rcases ev with ⟨ty, url, un, pw, pr⟩
    by_cases hty : ty = some "noauth"
    · simp [from_env, hty] at h
      simp [← h, variantOf, impliedEnvVariant, hty]
    · cases url <;> cases un <;> cases pw <;> cases pr <;>
        (simp [from_env, hty] at h
         try simp [← h, variantOf, impliedEnvVariant, hty])

/-- A concrete config selecting token-based Identity authentication. -/
def wConfig : Config :=
  { auth_url := some "http://identity.example/v3", username := none,
    password := none, project_name := none, token := some "tk" }

/-- A concrete environment selecting the unauthenticated variant. -/
def wEnv : Env :=
  { os_auth_type := some "noauth", os_auth_url := none, os_username := none,
    os_password := none, os_project_name := none }

theorem factory_variant_selection_witness :
    variantOf (.Identity (.token "tk")) = impliedConfigVariant wConfig
    ∧ variantOf .NoAuth = impliedEnvVariant wEnv :=
  ⟨factory_variant_selection.1 wConfig (.Identity (.token "tk")) (by rfl),
   factory_variant_selection.2 wEnv .NoAuth (by simp [from_env, wEnv])⟩

/-- C10: in the concurrent-refresh model, for any number of concurrent
callers of `acquire_token` on one instance and any interleaving reachable
from the initial state, at most one authentication exchange is ever in
flight at a time, at most one exchange is ever started — and once any
caller has been served a token, exactly one exchange was started and every
served caller received the one token that exchange produced. -/
theorem acquire_single_exchange (n now : Nat) (freshTok : Token)
    (s : RefreshSystem) (hfresh : freshTok.expired now = false)
    (hreach : Reach now freshTok (initSystem n) s) :
    s.started ≤ 1
    ∧ inFlightCount s ≤ 1
    ∧ (s.served ≠ [] → s.started = 1)
    ∧ (∀ t ∈ s.served, t = freshTok) := by
  have hinv : RefreshInv freshTok s := by
    induction hreach with
    | refl => exact refreshInv_init freshTok n
    | step hr hst ih => exact refreshInv_step hfresh ih hst
  obtain ⟨h1, _, _, _, h5, h6⟩ := hinv
  refine ⟨h1, ?_, h6, h5⟩
  cases hf : s.inFlight <;> simp [inFlightCount, hf]

/-- The shared state after one full concurrent run of the witness trace:
one exchange started and completed, one of the two callers already served. -/
def wSystem : RefreshSystem :=
  { cache := some wTok, inFlight := false, started := 1, pending := 1,
    served := [wTok] }

theorem acquire_single_exchange_witness :
    wSystem.started ≤ 1
    ∧ inFlightCount wSystem ≤ 1
    ∧ (wSystem.served ≠ [] → wSystem.started = 1)
    ∧ (∀ t ∈ wSystem.served, t = wTok) := by
  refine acquire_single_exchange 2 0 wTok _ rfl ?_
  exact Reach.step
    (Reach.step
      (Reach.step (Reach.refl (initSystem 2))
        (CStep.begin (initSystem 2) (by decide) rfl rfl))
      (CStep.finish _ rfl))
    (CStep.serve _ wTok (by decide) rfl rfl)

end OpenStackAuth
